import Mathlib

/-!
# Verification of the libopenshot prefetch cache engine and effect pipeline

This development shallowly embeds the core of the repository's
`VideoCacheThread` (directional playback prefetch cache), the `ColorMap`
(3D LUT) effect, and the `Deinterlace` effect, and proves the testable
properties stated in the specification against those embeddings.

Conventions of the embedding:
* C++ `int`/`int64_t` values are modelled as `Int` (no arithmetic here can
  overflow 64 bits on the inputs considered).
* The frame cache is modelled by the list of cached frame ordinals
  (`Contains`/`Add`/`Touch`/`Clear` become membership / cons / a ghost
  record / the empty list); LRU bookkeeping is irrelevant to the claims.
* The reader is modelled as `Int → Bool`: `true` means `GetFrame`
  succeeds, `false` means it throws `OutOfBoundsFrame`.
* Floating-point pixel arithmetic is modelled by exact rational
  arithmetic (`ℚ`).
* The JUCE `threadShouldExit` signal is an external concurrency input and
  is modelled as never set in this sequential embedding.
-/

namespace VideoCacheThread

/-- State touched by `VideoCacheThread::setSpeed` and
`VideoCacheThread::computeDirection` (fields `speed`, `last_speed`,
`last_dir` of the C++ class). -/
structure SpeedState where
  speed : Int
  last_speed : Int
  last_dir : Int
deriving DecidableEq

/-- Constructor values from `VideoCacheThread::VideoCacheThread()`:
`speed(0)`, `last_speed(1)`, `last_dir(1)`. -/
def initSpeedState : SpeedState :=
  { speed := 0, last_speed := 1, last_dir := 1 }

/-- `VideoCacheThread::setSpeed` (VideoCacheThread.cpp:54-62): only update
`last_speed` and `last_dir` when `new_speed != 0`. -/
def setSpeed (st : SpeedState) (new_speed : Int) : SpeedState :=
  if new_speed ≠ 0 then
    { speed := new_speed,
      last_speed := new_speed,
      last_dir := if new_speed > 0 then 1 else -1 }
  else
    { st with speed := new_speed }

/-- `VideoCacheThread::computeDirection` (VideoCacheThread.cpp:114-118): if
speed ≠ 0 use its sign, else keep `last_dir`. -/
def computeDirection (st : SpeedState) : Int :=
  if st.speed ≠ 0 then (if st.speed > 0 then 1 else -1) else st.last_dir

/-- `VideoCacheThread::computeWindowBounds` (VideoCacheThread.cpp:139-159).
Returns the pair `(window_begin, window_end)`. -/
def computeWindowBounds (playhead : Int) (dir : Int) (ahead_count : Int)
    (timeline_end : Int) : Int × Int :=
  let window_begin := if dir > 0 then playhead else playhead - ahead_count
  let window_end := if dir > 0 then playhead + ahead_count else playhead
  (max window_begin 1, min window_end timeline_end)

/-- `VideoCacheThread::clearCacheIfPaused` (VideoCacheThread.cpp:126-137).
The cache is the list of cached ordinals; `ClearAllCache` empties it.
Returns the flag together with the resulting cache contents. -/
def clearCacheIfPaused (playhead : Int) (paused : Bool) (cache : List Int) :
    Bool × List Int :=
  if paused = true ∧ playhead ∉ cache then (true, []) else (false, cache)

/-- State read and written by `VideoCacheThread::prefetchWindow`
(VideoCacheThread.cpp:161-203) and `handleUserSeek`
(VideoCacheThread.cpp:120-124).  `cache` is the list of cached frame
ordinals (most recent first); `fetched`, `touched` and `visited` are ghost
instrumentation (most recent first) recording which ordinals the batch
fetched via `Reader.GetFrame`/`Cache.Add`, touched via `Cache.Touch`, and
visited at all; they do not influence the computation.  `window_full` is
the local flag `prefetchWindow` returns. -/
structure PFState where
  cache : List Int
  last_cached_index : Int
  cached_frame_count : Int
  userSeeked : Bool
  window_full : Bool
  fetched : List Int
  touched : List Int
  visited : List Int
deriving DecidableEq

/-- `VideoCacheThread::handleUserSeek` (VideoCacheThread.cpp:120-124):
place `last_cached_index` just behind the playhead in the given
direction. -/
def handleUserSeek (s : PFState) (playhead : Int) (dir : Int) : PFState :=
  { s with last_cached_index := playhead - dir }

/-- The `while` loop of `VideoCacheThread::prefetchWindow`
(VideoCacheThread.cpp:171-200), as fuel-indexed structural recursion (the
fuel chosen in `prefetchWindow` is enough for the loop to exit through its
own condition first).  `reader n = true` models a successful
`reader->GetFrame(n)`, `reader n = false` models the `OutOfBoundsFrame`
throw (`break` before any state change).  `trigger` models a cache whose
`Add(n)` side-effect sets the `userSeeked` flag (as the repository's
`InterruptingCache` test double does); for the production cache it is
`fun _ => false`.  `threadShouldExit` is modelled as never set. -/
def pfLoop (reader : Int → Bool) (trigger : Int → Bool)
    (window_begin window_end : Int) (dir : Int) :
    Nat → Int → PFState → PFState
  | 0, _, s => s
  | fuel + 1, next_frame, s =>
    if (dir > 0 ∧ next_frame ≤ window_end) ∨ (dir < 0 ∧ next_frame ≥ window_begin) then
      if s.userSeeked = true then s
      else if next_frame ∈ s.cache then
        pfLoop reader trigger window_begin window_end dir fuel (next_frame + dir)
          { s with touched := next_frame :: s.touched,
                   visited := next_frame :: s.visited,
                   last_cached_index := next_frame }
      else if reader next_frame = true then
        pfLoop reader trigger window_begin window_end dir fuel (next_frame + dir)
          { s with cache := next_frame :: s.cache,
                   cached_frame_count := s.cached_frame_count + 1,
                   userSeeked := s.userSeeked || trigger next_frame,
                   window_full := false,
                   fetched := next_frame :: s.fetched,
                   visited := next_frame :: s.visited,
                   last_cached_index := next_frame }
      else s
    else s

/-- Fuel sufficient for `pfLoop` with `dir = ±1`: the loop advances
`next_frame` by `dir` each iteration starting from
`last_cached_index + dir`, so it iterates at most
`window_end - last_cached_index` (forward) or
`last_cached_index - window_begin` (backward) times. -/
def pfFuel (last_cached_index window_begin window_end : Int) (dir : Int) : Nat :=
  if dir > 0 then (window_end - last_cached_index).toNat
  else (last_cached_index - window_begin).toNat

/-- `VideoCacheThread::prefetchWindow` (VideoCacheThread.cpp:161-203):
initialises `window_full = true` and `next_frame = last_cached_index + dir`
and runs the loop. -/
def prefetchWindow (reader : Int → Bool) (trigger : Int → Bool)
    (window_begin window_end : Int) (dir : Int) (s : PFState) : PFState :=
  pfLoop reader trigger window_begin window_end dir
    (pfFuel s.last_cached_index window_begin window_end dir)
    (s.last_cached_index + dir)
    { s with window_full := true }

end VideoCacheThread

/-- C6. For every playhead `p` and direction `d ∈ {-1,+1}`, regardless of
the previous `last_cached_index`, `handleUserSeek(p, d)` leaves
`last_cached_index = p - d`, so the next prefetch step
(`last_cached_index + d`) lands on `p`. -/
theorem C6_handle_user_seek :
    ∀ (s : VideoCacheThread.PFState) (p d : Int), (d = 1 ∨ d = -1) →
      (VideoCacheThread.handleUserSeek s p d).last_cached_index = p - d ∧
      (VideoCacheThread.handleUserSeek s p d).last_cached_index + d = p := by
  intro s p d _
  constructor
  · rfl
  · show p - d + d = p
    omega

/-- Witness for C6: from `last_cached_index = 100`, `handleUserSeek(50, 1)`
yields `last_cached_index = 49` (the repository's unit-test scenario). -/
theorem C6_handle_user_seek_witness :
    (VideoCacheThread.handleUserSeek
      ⟨[], 100, 0, false, true, [], [], []⟩ 50 1).last_cached_index = 50 - 1 :=
  (C6_handle_user_seek ⟨[], 100, 0, false, true, [], [], []⟩ 50 1 (Or.inl rfl)).1

/-- Decomposition of a `pfLoop` run (without a seek trigger) relative to
its starting state `s`: `lF`, `lT` and `lV` are the ordinals newly
fetched, touched and visited by the run (most recent first, so the last
visited frame is `lV.headD`). -/
def PFDecomp (dir next : Int) (s r : VideoCacheThread.PFState)
    (lF lT lV : List Int) : Prop :=
  r.fetched = lF ++ s.fetched ∧
  r.touched = lT ++ s.touched ∧
  r.visited = lV ++ s.visited ∧
  r.cache = lF ++ s.cache ∧
  r.last_cached_index = lV.headD s.last_cached_index ∧
  r.window_full = (s.window_full && lF.isEmpty) ∧
  r.userSeeked = false ∧
  (∀ n ∈ lF, n ∉ s.cache) ∧
  (∀ n ∈ lT, n ∈ s.cache) ∧
  (∀ n ∈ lV, n ∈ lF ∨ n ∈ lT) ∧
  (∀ n ∈ lT, n ∈ lV) ∧
  (∀ m ∈ lV, dir * next ≤ dir * m)

/-- Invariant of the `prefetchWindow` loop with the production cache (no
seek trigger): every run decomposes as in `PFDecomp`. -/
theorem pfLoop_no_trigger_inv (reader : Int → Bool) (wb we dir : Int)
    (hdir : dir = 1 ∨ dir = -1) :
    ∀ (fuel : Nat) (next : Int) (s : VideoCacheThread.PFState),
      s.userSeeked = false →
      ∃ lF lT lV : List Int,
        PFDecomp dir next s
          (VideoCacheThread.pfLoop reader (fun _ => false) wb we dir fuel next s)
          lF lT lV := by
  have hdd : dir * dir = 1 := by rcases hdir with h | h <;> subst h <;> norm_num
  have hstep : ∀ next : Int, dir * next ≤ dir * (next + dir) := by
    intro next
    have : dir * (next + dir) = dir * next + 1 := by rw [mul_add, hdd]
    omega
  intro fuel
  induction fuel with
  | zero =>
    intro next s hu
    exact ⟨[], [], [], rfl, rfl, rfl, rfl, rfl, by simp [VideoCacheThread.pfLoop], hu,
           by simp, by simp, by simp, by simp, by simp⟩
  | succ f ih =>
    intro next s hu
    unfold VideoCacheThread.pfLoop
    by_cases hc : (dir > 0 ∧ next ≤ we) ∨ (dir < 0 ∧ next ≥ wb)
    · rw [if_pos hc, if_neg (by rw [hu]; exact Bool.false_ne_true)]
      by_cases hm : next ∈ s.cache
      · -- Touch branch
        rw [if_pos hm]
        obtain ⟨lF, lT, lV, h1, h2, h3, h4, h5, h6, h7, h8, h9, h10, h11, h12⟩ :=
          ih (next + dir)
            { cache := s.cache, last_cached_index := next,
              cached_frame_count := s.cached_frame_count,
              userSeeked := s.userSeeked, window_full := s.window_full,
              fetched := s.fetched, touched := next :: s.touched,
              visited := next :: s.visited } hu
        refine ⟨lF, lT ++ [next], lV ++ [next], h1, ?_, ?_, h4, ?_, h6, h7, h8, ?_, ?_, ?_, ?_⟩
        · simpa [List.append_assoc] using h2
        · simpa [List.append_assoc] using h3
        · rcases lV with _ | ⟨v, t⟩
          · simpa using h5
          · simpa using h5
        · intro n hn
          rcases List.mem_append.mp hn with hn' | hn'
          · exact h9 n hn'
          · rw [List.mem_singleton.mp hn']
            exact hm
        · intro n hn
          rcases List.mem_append.mp hn with hn' | hn'
          · rcases h10 n hn' with h | h
            · exact Or.inl h
            · exact Or.inr (List.mem_append_left _ h)
          · exact Or.inr (List.mem_append_right _ hn')
        · intro n hn
          rcases List.mem_append.mp hn with hn' | hn'
          · exact List.mem_append_left _ (h11 n hn')
          · exact List.mem_append_right _ hn'
        · intro m hmm
          rcases List.mem_append.mp hmm with hm' | hm'
          · exact le_trans (hstep next) (h12 m hm')
          · rw [List.mem_singleton.mp hm']
      · rw [if_neg hm]
        by_cases hr : reader next = true
        · -- Fetch-and-add branch
          rw [if_pos hr]
          obtain ⟨lF, lT, lV, h1, h2, h3, h4, h5, h6, h7, h8, h9, h10, h11, h12⟩ :=
            ih (next + dir)
              { cache := next :: s.cache, last_cached_index := next,
                cached_frame_count := s.cached_frame_count + 1,
                userSeeked := s.userSeeked || false, window_full := false,
                fetched := next :: s.fetched, touched := s.touched,
                visited := next :: s.visited } (by simp [hu])
          have hfresh : ∀ n ∈ lT, n ≠ next := by
            intro n hn hcontra
            have h1' := h12 n (h11 n hn)
            subst hcontra
            have := hstep n
            have h2' : dir * (n + dir) = dir * n + 1 := by rw [mul_add, hdd]
            omega
          refine ⟨lF ++ [next], lT, lV ++ [next], ?_, h2, ?_, ?_, ?_, ?_, h7, ?_, ?_, ?_, ?_, ?_⟩
          · simpa [List.append_assoc] using h1
          · simpa [List.append_assoc] using h3
          · simpa [List.append_assoc] using h4
          · rcases lV with _ | ⟨v, t⟩
            · simpa using h5
            · simpa using h5
          · rw [show ((false : Bool) && lF.isEmpty) = false from Bool.false_and _] at h6
            rw [h6]
            simp
          · intro n hn
            rcases List.mem_append.mp hn with hn' | hn'
            · have := h8 n hn'
              intro hns
              exact this (List.mem_cons_of_mem _ hns)
            · rw [List.mem_singleton.mp hn']
              exact hm
          · intro n hn
            have h9' := h9 n hn
            rcases List.mem_cons.mp h9' with h | h
            · exact absurd h (hfresh n hn)
            · exact h
          · intro n hn
            rcases List.mem_append.mp hn with hn' | hn'
            · rcases h10 n hn' with h | h
              · exact Or.inl (List.mem_append_left _ h)
              · exact Or.inr h
            · exact Or.inl (List.mem_append_right _ hn')
          · intro n hn
            exact List.mem_append_left _ (h11 n hn)
          · intro m hmm
            rcases List.mem_append.mp hmm with hm' | hm'
            · exact le_trans (hstep next) (h12 m hm')
            · rw [List.mem_singleton.mp hm']
        · -- OutOfBoundsFrame: break with the state unchanged
          rw [if_neg hr]
          exact ⟨[], [], [], rfl, rfl, rfl, rfl, rfl, by simp, hu,
                 by simp, by simp, by simp, by simp, by simp⟩
    · rw [if_neg hc]
      exact ⟨[], [], [], rfl, rfl, rfl, rfl, rfl, by simp, hu,
             by simp, by simp, by simp, by simp, by simp⟩

/-- C1. For every direction `dir ∈ {-1,+1}` and every inclusive window
`[window_begin, window_end]`, a `prefetchWindow` call starting from
`last_cached_index` fetches (via `Reader.GetFrame` and `Cache.Add`) every
frame it visits that is not already in the cache, touches the ones that
are, leaves `last_cached_index` equal to the last visited frame, and
returns `true` ("window was already full") iff no new frame was added.
In particular (second conjunct), with an empty cache,
`last_cached_index = 0`, window `[1,5]`, `dir = +1`, it returns
`full = false`, sets `last_cached_index = 5` and caches frames 1..5, and
an immediately repeated call returns `full = true`.  The ghost fields
`fetched`/`touched`/`visited` record the `Cache.Add`, `Cache.Touch` and
loop-visit events of the batch (most recent first). -/
theorem C1_prefetch_window :
    (∀ (reader : Int → Bool) (wb we dir : Int)
       (s r : VideoCacheThread.PFState),
      (dir = 1 ∨ dir = -1) → s.userSeeked = false →
      s.fetched = [] → s.touched = [] → s.visited = [] →
      r = VideoCacheThread.prefetchWindow reader (fun _ => false) wb we dir s →
      (r.cache = r.fetched ++ s.cache ∧
       (∀ n ∈ r.visited, n ∉ s.cache → n ∈ r.fetched) ∧
       (∀ n ∈ r.visited, n ∈ s.cache → n ∈ r.touched) ∧
       r.last_cached_index = r.visited.headD s.last_cached_index ∧
       (r.window_full = true ↔ r.fetched = []))) ∧
    ((VideoCacheThread.prefetchWindow (fun _ => true) (fun _ => false) 1 5 1
        ⟨[], 0, 0, false, true, [], [], []⟩).window_full = false ∧
     (VideoCacheThread.prefetchWindow (fun _ => true) (fun _ => false) 1 5 1
        ⟨[], 0, 0, false, true, [], [], []⟩).last_cached_index = 5 ∧
     (VideoCacheThread.prefetchWindow (fun _ => true) (fun _ => false) 1 5 1
        ⟨[], 0, 0, false, true, [], [], []⟩).cache = [5, 4, 3, 2, 1] ∧
     (VideoCacheThread.prefetchWindow (fun _ => true) (fun _ => false) 1 5 1
       (VideoCacheThread.prefetchWindow (fun _ => true) (fun _ => false) 1 5 1
          ⟨[], 0, 0, false, true, [], [], []⟩)).window_full = true) := by
  constructor
  · intro reader wb we dir s r hdir hu hf ht hv hr
    subst hr
    obtain ⟨sc, slci, scnt, sus, swf, sfe, sto, svi⟩ := s
    dsimp only at hu hf ht hv ⊢
    subst hu
    subst hf
    subst ht
    subst hv
    unfold VideoCacheThread.prefetchWindow
    dsimp only
    obtain ⟨lF, lT, lV, h1, h2, h3, h4, h5, h6, h7, h8, h9, h10, h11, h12⟩ :=
      pfLoop_no_trigger_inv reader wb we dir hdir
        (VideoCacheThread.pfFuel slci wb we dir) (slci + dir)
        { cache := sc, last_cached_index := slci, cached_frame_count := scnt,
          userSeeked := false, window_full := true,
          fetched := [], touched := [], visited := [] } rfl
    dsimp only at h1 h2 h3 h4 h5 h6 h8 h9
    simp only [List.append_nil] at h1 h2 h3
    refine ⟨?_, ?_, ?_, ?_, ?_⟩
    · rw [h4, h1]
    · intro n hn hns
      rw [h3] at hn
      rcases h10 n hn with h | h
      · rw [h1]; exact h
      · exact absurd (h9 n h) hns
    · intro n hn hns
      rw [h3] at hn
      rcases h10 n hn with h | h
      · exact absurd hns (h8 n h)
      · rw [h2]; exact h
    · rw [h5, h3]
    · rw [h6, h1]
      constructor
      · intro h
        rcases lF with _ | ⟨a, l⟩
        · rfl
        · simp at h
      · intro h
        subst h
        simp
  · decide

/-- Witness for C1: the general conjunct applied to the concrete forward
scenario (empty cache, `last_cached_index = 0`, window `[1,5]`,
`dir = +1`, total reader): the final cache is exactly the fetched frames
prepended to the initially empty cache. -/
theorem C1_prefetch_window_witness :
    (VideoCacheThread.prefetchWindow (fun _ => true) (fun _ => false) 1 5 1
        ⟨[], 0, 0, false, true, [], [], []⟩).cache =
    (VideoCacheThread.prefetchWindow (fun _ => true) (fun _ => false) 1 5 1
        ⟨[], 0, 0, false, true, [], [], []⟩).fetched ++ [] :=
  (C1_prefetch_window.1 (fun _ => true) 1 5 1
    ⟨[], 0, 0, false, true, [], [], []⟩
    (VideoCacheThread.prefetchWindow (fun _ => true) (fun _ => false) 1 5 1
      ⟨[], 0, 0, false, true, [], [], []⟩)
    (Or.inl rfl) rfl rfl rfl rfl rfl).1

namespace ColorMap

/-- A text line of a `.cube` file, as a character list (the Qt string
layer of the C++ code operates on these line by line). -/
abbrev Line := List Char

/-- `QString::trimmed`: strip leading and trailing whitespace. -/
def trimmed (l : Line) : Line :=
  ((l.dropWhile Char.isWhitespace).reverse.dropWhile Char.isWhitespace).reverse

/-- Accumulator worker for `splitWs`. -/
def splitWsAux : Line → Line → List Line
  | [], acc => if acc.isEmpty then [] else [acc.reverse]
  | c :: cs, acc =>
    if c.isWhitespace then
      if acc.isEmpty then splitWsAux cs [] else acc.reverse :: splitWsAux cs []
    else splitWsAux cs (c :: acc)

/-- `QString::split(QRegularExpression("\\s+"))` on a trimmed line: the
whitespace-separated tokens. -/
def splitWs (l : Line) : List Line := splitWsAux l []

/-- Digit-string accumulator: `none` on the first non-digit character
(mirrors Qt numeric parsing failing on malformed input). -/
def digitsToNat : Line → Nat → Option Nat
  | [], acc => some acc
  | c :: cs, acc =>
    if c.isDigit then digitsToNat cs (acc * 10 + (c.toNat - '0'.toNat)) else none

/-- `QString::toInt()` with a null `ok` pointer: parse an optionally
signed decimal integer, 0 on failure. -/
def qtToInt (t : Line) : Int :=
  match t with
  | [] => 0
  | '-' :: rest => (match digitsToNat rest 0 with
                    | some n => -(n : Int)
                    | none => 0)
  | '+' :: rest => (match digitsToNat rest 0 with
                    | some n => (n : Int)
                    | none => 0)
  | _ => (match digitsToNat t 0 with
          | some n => (n : Int)
          | none => 0)

/-- Splits a token at its first `'.'`: integer part and, when a dot is
present, the fractional digits. -/
def splitDot : Line → Line × Option Line
  | [] => ([], none)
  | '.' :: cs => ([], some cs)
  | c :: cs =>
    let p := splitDot cs
    (c :: p.1, p.2)

/-- Modelled from external Qt: `QString::toFloat()` on the plain decimal
tokens of a `.cube` file, with exact rational arithmetic in place of
`float`; 0 on malformed input (no claim depends on these values). -/
def qtToFloat (t : Line) : ℚ :=
  match t with
  | '-' :: rest => -(qtToFloatAbs rest)
  | _ => qtToFloatAbs t
where
  /-- Unsigned part of `qtToFloat`. -/
  qtToFloatAbs (t : Line) : ℚ :=
    let p := splitDot t
    let ip : ℚ := match digitsToNat p.1 0 with
      | some n => (n : ℚ)
      | none => 0
    match p.2 with
    | none => ip
    | some frac =>
      match digitsToNat frac 0 with
      | some n => ip + (n : ℚ) / ((10 : ℚ) ^ frac.length)
      | none => ip

/-- The token `LUT_3D_SIZE`. -/
def lut3dSizeTok : Line := ['L', 'U', 'T', '_', '3', 'D', '_', 'S', 'I', 'Z', 'E']

/-- The token `TITLE`. -/
def titleTok : Line := ['T', 'I', 'T', 'L', 'E']

/-- The token `DOMAIN`. -/
def domainTok : Line := ['D', 'O', 'M', 'A', 'I', 'N']

/-- Phase 1 of `ColorMap::load_cube_file` (ColorMap.cpp:43-52): scan for
the first line whose trimmed form starts with `LUT_3D_SIZE`, parse its
second token (`parsed_size` stays 0 when the line has fewer than two
tokens), and `break` — the remaining lines are returned for phase 2.
`none` means no such line exists. -/
def findSizeLine : List Line → Option (Int × List Line)
  | [] => none
  | l :: ls =>
    let t := trimmed l
    if lut3dSizeTok.isPrefixOf t then
      let parts := splitWs t
      some (if parts.length ≥ 2 then qtToInt (parts.getD 1 []) else 0, ls)
    else findSizeLine ls

/-- Line classification of phase 2 of `ColorMap::load_cube_file`
(ColorMap.cpp:60-65): blank lines and lines starting with `#`, `TITLE` or
`DOMAIN` are skipped. -/
def isSkippableLine (t : Line) : Bool :=
  t.isEmpty || ['#'].isPrefixOf t || titleTok.isPrefixOf t || domainTok.isPrefixOf t

/-- Phase 2 of `ColorMap::load_cube_file` (ColorMap.cpp:54-74): while data
is still needed (`parsed_data.size() < total*3`) and lines remain, skip
comment-like lines and push the first three floats of every line holding
at least three tokens. -/
def readTriples (total3 : Nat) : List Line → List ℚ → List ℚ
  | [], acc => acc
  | l :: ls, acc =>
    if acc.length < total3 then
      let t := trimmed l
      if isSkippableLine t then readTriples total3 ls acc
      else
        let vals := splitWs t
        if vals.length ≥ 3 then
          readTriples total3 ls
            (acc ++ [qtToFloat (vals.getD 0 []), qtToFloat (vals.getD 1 []),
                     qtToFloat (vals.getD 2 [])])
        else readTriples total3 ls acc
    else acc

/-- `ColorMap::load_cube_file` (ColorMap.cpp:20-91), returning the pair
`(lut_size, lut_data)`.  `lut_path_empty` models `lut_path.empty()`;
`file = none` models a file that is missing or cannot be opened, and
`file = some lines` its text content.  A parse that does not produce
exactly `N³` triples clears both fields. -/
def load_cube_file (lut_path_empty : Bool) (file : Option (List Line)) :
    Int × List ℚ :=
  if lut_path_empty then (0, [])
  else
    match file with
    | none => (0, [])
    | some lines =>
      match findSizeLine lines with
      | none => (0, [])
      | some (parsed_size, rest) =>
        if parsed_size > 0 then
          let total : Int := parsed_size * parsed_size * parsed_size
          let data := readTriples (total * 3).toNat rest []
          if (data.length : Int) = total * 3 then (parsed_size, data) else (0, [])
        else (0, [])

/-- One RGBA pixel; the byte channel values are carried as rationals
because the per-pixel pipeline of `ColorMap::GetFrame` computes in
floating point, modelled here by exact rational arithmetic. -/
structure Pixel where
  r : ℚ
  g : ℚ
  b : ℚ
  a : ℚ
deriving DecidableEq

/-- Modelled from the spec: the `constrain` write-back helper is declared
outside this repository snapshot; the spec says all pixel arithmetic
"clamps to `[0,255]` on write back". -/
def constrain (x : ℚ) : ℚ := min 255 (max 0 x)

/-- The per-pixel body of `ColorMap::GetFrame` (ColorMap.cpp:151-227):
demultiply by alpha (skip if alpha is 0), map to LUT space, trilinear
interpolation over 8 voxels with red-fastest addressing
`((b·N + g)·N + r)·3`, blend each channel by `t_c`, re-premultiply, clamp.
Out-of-range LUT reads (impossible for a loaded LUT) default to 0. -/
def processPixel (lut_size : Int) (lut_data : List ℚ) (tR tG tB : ℚ)
    (p : Pixel) : Pixel :=
  let alpha : ℚ := p.a / 255
  if alpha = 0 then p
  else
    let R := p.r / alpha
    let G := p.g / alpha
    let B := p.b / alpha
    let Rn := R * (1 / 255)
    let Gn := G * (1 / 255)
    let Bn := B * (1 / 255)
    let rf := Rn * ((lut_size : ℚ) - 1)
    let gf := Gn * ((lut_size : ℚ) - 1)
    let bf := Bn * ((lut_size : ℚ) - 1)
    let r0 := ⌊rf⌋
    let r1 := min (r0 + 1) (lut_size - 1)
    let g0 := ⌊gf⌋
    let g1 := min (g0 + 1) (lut_size - 1)
    let b0 := ⌊bf⌋
    let b1 := min (b0 + 1) (lut_size - 1)
    let dr : ℚ := rf - (r0 : ℚ)
    let dg : ℚ := gf - (g0 : ℚ)
    let db : ℚ := bf - (b0 : ℚ)
    let base000 := ((b0 * lut_size + g0) * lut_size + r0) * 3
    let base100 := ((b0 * lut_size + g0) * lut_size + r1) * 3
    let base010 := ((b0 * lut_size + g1) * lut_size + r0) * 3
    let base110 := ((b0 * lut_size + g1) * lut_size + r1) * 3
    let base001 := ((b1 * lut_size + g0) * lut_size + r0) * 3
    let base101 := ((b1 * lut_size + g0) * lut_size + r1) * 3
    let base011 := ((b1 * lut_size + g1) * lut_size + r0) * 3
    let base111 := ((b1 * lut_size + g1) * lut_size + r1) * 3
    let at_ := fun i : Int => lut_data.getD i.toNat 0
    let interp := fun off : Int =>
      let c00 := at_ (base000 + off) * (1 - dr) + at_ (base100 + off) * dr
      let c01 := at_ (base001 + off) * (1 - dr) + at_ (base101 + off) * dr
      let c10 := at_ (base010 + off) * (1 - dr) + at_ (base110 + off) * dr
      let c11 := at_ (base011 + off) * (1 - dr) + at_ (base111 + off) * dr
      let c0 := c00 * (1 - dg) + c10 * dg
      let c1 := c01 * (1 - dg) + c11 * dg
      c0 * (1 - db) + c1 * db
    let lr := interp 0
    let lg := interp 1
    let lb := interp 2
    let outR := (lr * tR + Rn * (1 - tR)) * alpha
    let outG := (lg * tG + Gn * (1 - tG)) * alpha
    let outB := (lb * tB + Bn * (1 - tB)) * alpha
    { r := constrain (outR * 255), g := constrain (outG * 255),
      b := constrain (outB * 255), a := p.a }

/-- `ColorMap::GetFrame` (ColorMap.cpp:128-230): reload the LUT when
`needs_refresh` is set, return the frame untouched when `lut_data` is
empty, otherwise evaluate the intensity keyframes once
(`t_c = channel_blend · overall`; the arguments are the keyframes'
`GetValue` results at the frame number) and map the per-pixel body over
the image. -/
def GetFrame (needs_refresh lut_path_empty : Bool) (file : Option (List Line))
    (lut_size : Int) (lut_data : List ℚ)
    (overall tiR tiG tiB : ℚ) (frame : List Pixel) : List Pixel :=
  let st := if needs_refresh then load_cube_file lut_path_empty file
            else (lut_size, lut_data)
  if st.2.isEmpty then frame
  else
    let tR := tiR * overall
    let tG := tiG * overall
    let tB := tiB * overall
    frame.map (processPixel st.1 st.2 tR tG tB)

/-- Count of the lines that phase 2 of `load_cube_file` would accept a
triple from: not blank/`#`/`TITLE`/`DOMAIN` after trimming, and holding at
least three tokens.  This is the number of RGB triples the file
supplies. -/
def countDataLines : List Line → Nat
  | [] => 0
  | l :: ls =>
    let t := trimmed l
    if isSkippableLine t then countDataLines ls
    else if (splitWs t).length ≥ 3 then countDataLines ls + 1
    else countDataLines ls

end ColorMap

/-- Helper for C7: with all three blend factors 0, the per-pixel body of
`ColorMap::GetFrame` is the identity on byte-valued pixels (the LUT sample
is multiplied by 0 and the demultiply/renormalise/re-premultiply chain
cancels exactly). -/
theorem processPixel_zero (sz : Int) (data : List ℚ) (p : ColorMap.Pixel)
    (h1 : 0 ≤ p.r) (h2 : p.r ≤ 255) (h3 : 0 ≤ p.g) (h4 : p.g ≤ 255)
    (h5 : 0 ≤ p.b) (h6 : p.b ≤ 255) :
    ColorMap.processPixel sz data 0 0 0 p = p := by
  obtain ⟨pr, pg, pb, pa⟩ := p
  dsimp only at h1 h2 h3 h4 h5 h6
  unfold ColorMap.processPixel
  dsimp only
  by_cases ha : (pa : ℚ) / 255 = 0
  · rw [if_pos ha]
  · rw [if_neg ha]
    have hpa : (pa : ℚ) ≠ 0 := by
      intro h
      exact ha (by rw [h]; norm_num)
    simp only [mul_zero, zero_add, sub_zero, mul_one, ColorMap.Pixel.mk.injEq]
    have key : ∀ c : ℚ, 0 ≤ c → c ≤ 255 →
        ColorMap.constrain (c / (pa / 255) * (1 / 255) * (pa / 255) * 255) = c := by
      intro c hc0 hc255
      have : c / (pa / 255) * (1 / 255) * (pa / 255) * 255 = c := by
        field_simp
        ring
      rw [this]
      unfold ColorMap.constrain
      rw [max_eq_right hc0, min_eq_right hc255]
    exact ⟨key pr h1 h2, key pg h3 h4, key pb h5 h6, trivial⟩

/-- C7. For every frame (of byte-valued RGBA pixels) and frame number,
when a ColorMap effect has a loaded LUT (`lut_data ≠ []`, no reload
pending) but its overall intensity keyframe evaluates to 0, `GetFrame` is
the identity on pixel data.  The keyframe arguments are the `GetValue`
results at the frame number; the witness covers the spec's concrete pixel
`(10,20,30,255)`. -/
theorem C7_colormap_identity_at_zero_intensity :
    ∀ (lut_size : Int) (lut_data : List ℚ) (lut_path_empty : Bool)
      (file : Option (List ColorMap.Line)) (tiR tiG tiB : ℚ)
      (frame : List ColorMap.Pixel),
      lut_data ≠ [] →
      (∀ p ∈ frame, 0 ≤ p.r ∧ p.r ≤ 255 ∧ 0 ≤ p.g ∧ p.g ≤ 255 ∧
        0 ≤ p.b ∧ p.b ≤ 255) →
      ColorMap.GetFrame false lut_path_empty file lut_size lut_data
        0 tiR tiG tiB frame = frame := by
  intro lut_size lut_data lut_path_empty file tiR tiG tiB frame hL hp
  unfold ColorMap.GetFrame
  dsimp only
  rw [show (if (false : Bool) = true then ColorMap.load_cube_file lut_path_empty file
            else (lut_size, lut_data)) = (lut_size, lut_data) from rfl]
  dsimp only
  rw [if_neg (by simpa [List.isEmpty_iff] using hL)]
  simp only [mul_zero]
  induction frame with
  | nil => rfl
  | cons p ps ih =>
    have hbp := hp p (List.mem_cons_self p ps)
    rw [List.map_cons,
        processPixel_zero lut_size lut_data p hbp.1 hbp.2.1 hbp.2.2.1
          hbp.2.2.2.1 hbp.2.2.2.2.1 hbp.2.2.2.2.2,
        ih (fun q hq => hp q (List.mem_cons_of_mem p hq))]

/-- Witness for C7: a 2×2×2 LUT of ones, overall intensity 0, frame
holding the single pixel `(10,20,30,255)` — returned exactly
unchanged. -/
theorem C7_colormap_identity_at_zero_intensity_witness :
    ColorMap.GetFrame false false none 2
      [1, 1, 1, 1, 1, 1, 1, 1, 1, 1, 1, 1,
       1, 1, 1, 1, 1, 1, 1, 1, 1, 1, 1, 1]
      0 1 1 1 [⟨10, 20, 30, 255⟩] = [⟨10, 20, 30, 255⟩] :=
  C7_colormap_identity_at_zero_intensity 2
    [1, 1, 1, 1, 1, 1, 1, 1, 1, 1, 1, 1,
     1, 1, 1, 1, 1, 1, 1, 1, 1, 1, 1, 1]
    false none 1 1 1 [⟨10, 20, 30, 255⟩] (by decide)
    (by intro p hp; rw [List.mem_singleton.mp hp]; norm_num)

/-- Helper for C8: phase 2 of the parser collects at most three floats per
qualifying data line. -/
theorem readTriples_length_le (total3 : Nat) :
    ∀ (ls : List ColorMap.Line) (acc : List ℚ),
      (ColorMap.readTriples total3 ls acc).length ≤
        acc.length + 3 * ColorMap.countDataLines ls := by
  intro ls
  induction ls with
  | nil => intro acc; simp [ColorMap.readTriples, ColorMap.countDataLines]
  | cons l ls ih =>
    intro acc
    unfold ColorMap.readTriples ColorMap.countDataLines
    dsimp only
    by_cases hlt : acc.length < total3
    · rw [if_pos hlt]
      by_cases hsk : ColorMap.isSkippableLine (ColorMap.trimmed l) = true
      · rw [if_pos hsk, if_pos hsk]
        exact ih acc
      · rw [if_neg hsk, if_neg hsk]
        by_cases h3 : (ColorMap.splitWs (ColorMap.trimmed l)).length ≥ 3
        · rw [if_pos h3, if_pos h3]
          have := ih (acc ++
            [ColorMap.qtToFloat ((ColorMap.splitWs (ColorMap.trimmed l)).getD 0 []),
             ColorMap.qtToFloat ((ColorMap.splitWs (ColorMap.trimmed l)).getD 1 []),
             ColorMap.qtToFloat ((ColorMap.splitWs (ColorMap.trimmed l)).getD 2 [])])
          simp only [List.length_append, List.length_cons, List.length_nil] at this
          omega
        · rw [if_neg h3, if_neg h3]
          exact ih acc
    · rw [if_neg hlt]
      omega

/-- C8 (corrected).  If the `.cube` file is missing, has no `LUT_3D_SIZE`
line, or supplies *fewer* than `N³` RGB triples, the LUT is left empty
(`lut_size = 0`, `lut_data = []`) and `GetFrame` returns every frame
unchanged; all functions involved are total, so no error is raised.  (The
claim's stronger premise "does not supply exactly N³ triples" is refuted
by `C8_cube_error_handling_counterexample`: the parser stops reading once
`N³` triples are collected and accepts a file with surplus triples.) -/
theorem C8_cube_error_handling :
    ∀ (file : Option (List ColorMap.Line)),
      (file = none ∨
       (∃ lines, file = some lines ∧ ColorMap.findSizeLine lines = none) ∨
       (∃ lines N rest, file = some lines ∧
          ColorMap.findSizeLine lines = some (N, rest) ∧
          (ColorMap.countDataLines rest : Int) < N * N * N)) →
      ColorMap.load_cube_file false file = (0, []) ∧
      (∀ (overall tiR tiG tiB : ℚ) (frame : List ColorMap.Pixel),
        ColorMap.GetFrame true false file 0 [] overall tiR tiG tiB frame =
          frame) := by
  intro file hfail
  have hload : ColorMap.load_cube_file false file = (0, []) := by
    rcases hfail with hnone | ⟨lines, hsome, hfind⟩ | ⟨lines, N, rest, hsome, hfind, hcount⟩
    · rw [hnone]
      rfl
    · rw [hsome]
      unfold ColorMap.load_cube_file
      rw [if_neg (by simp)]
      dsimp only
      rw [hfind]
    · rw [hsome]
      unfold ColorMap.load_cube_file
      rw [if_neg (by simp)]
      dsimp only
      rw [hfind]
      dsimp only
      by_cases hN : N > 0
      · rw [if_pos hN]
        rw [if_neg ?_]
        have hlen := readTriples_length_le (N * N * N * 3).toNat rest []
        simp only [List.length_nil, Nat.zero_add] at hlen
        intro hEq
        have hcast : ((ColorMap.readTriples (N * N * N * 3).toNat rest []).length : Int) ≤
            3 * (ColorMap.countDataLines rest : Int) := by
          exact_mod_cast hlen
        omega
      · rw [if_neg hN]
  refine ⟨hload, ?_⟩
  intro overall tiR tiG tiB frame
  unfold ColorMap.GetFrame
  rw [if_pos rfl, hload]
  rfl

/-- Witness for C8: a missing file leaves the LUT empty. -/
theorem C8_cube_error_handling_witness :
    ColorMap.load_cube_file false none = (0, []) :=
  (C8_cube_error_handling none (Or.inl rfl)).1

/-- Counterexample for C8 as stated: the file
`LUT_3D_SIZE 1 / "0 0 0" / "1 1 1"` supplies 2 ≠ 1³ RGB triples, yet the
parser accepts the first `N³` of them and loads the LUT
(`lut_size = 1 ≠ 0`, `lut_data = [0,0,0]`), contradicting "the LUT is
left empty". -/
theorem C8_cube_error_handling_counterexample :
    ColorMap.findSizeLine
        [['L', 'U', 'T', '_', '3', 'D', '_', 'S', 'I', 'Z', 'E', ' ', '1'],
         ['0', ' ', '0', ' ', '0'], ['1', ' ', '1', ' ', '1']] =
      some (1, [['0', ' ', '0', ' ', '0'], ['1', ' ', '1', ' ', '1']]) ∧
    ColorMap.countDataLines
        [['0', ' ', '0', ' ', '0'], ['1', ' ', '1', ' ', '1']] = 2 ∧
    (2 : Nat) ≠ 1 * 1 * 1 ∧
    ColorMap.load_cube_file false (some
      [['L', 'U', 'T', '_', '3', 'D', '_', 'S', 'I', 'Z', 'E', ' ', '1'],
       ['0', ' ', '0', ' ', '0'], ['1', ' ', '1', ' ', '1']]) =
      (1, [0, 0, 0]) := by
  decide

namespace Deinterlace

/-- A frame image as its scanlines: `row i` is the content of scanline
`i` (the effect copies whole scanlines with `memcpy`, so their inner
structure is irrelevant). -/
structure Image (α : Type) where
  height : Nat
  row : Nat → α

/-- `rows_to_copy` of `Deinterlace::GetFrame` (Deinterlace.cpp:66):
`(original_height - start + 1) / 2` in C++ `int` arithmetic; on these
operands (`start ≤ 1`) ℕ arithmetic agrees, including the degenerate
`H = 0, start = 1` case where both give 0. -/
def rows_to_copy (original_height start : Nat) : Nat :=
  (original_height - start + 1) / 2

/-- The intermediate image of `Deinterlace::GetFrame`
(Deinterlace.cpp:60-84): `start = 1` iff `isOdd`, and row `i` of the
intermediate image is source row `start + 2·i`. -/
def deinterlacedImage {α : Type} (img : Image α) (isOdd : Bool) : Image α :=
  let start := if isOdd then 1 else 0
  { height := rows_to_copy img.height start,
    row := fun i => img.row (start + 2 * i) }

/-- Modelled from external Qt: `QImage::scaled` with `FastTransformation`
(nearest-neighbour); only the output height matters to the claims. -/
def qtScaledRows {α : Type} (img : Image α) (newH : Nat) : Image α :=
  { height := newH, row := fun i => img.row (i * img.height / newH) }

/-- `Deinterlace::GetFrame` (Deinterlace.cpp:49-96): build the
half-height intermediate image, then rescale back to the original
height. -/
def GetFrame {α : Type} (img : Image α) (isOdd : Bool) : Image α :=
  qtScaledRows (deinterlacedImage img isOdd) img.height

/-- Written from the spec's words (§4.4.4), for comparison with the
source-derived `rows_to_copy`: "a half-height image of
`ceil((H − start + 1)/2)` rows". -/
def specRowsCeil (H start : Nat) : Int := ⌈((H : ℚ) - start + 1) / 2⌉

/-- The amended row-count formula: `floor((H − start + 1)/2)`
(equivalently `ceil((H − start)/2)`). -/
def specRowsFloor (H start : Nat) : Int := ⌊((H : ℚ) - start + 1) / 2⌋

end Deinterlace

/-- C9 (corrected). For every input frame of height `H` and
`start ∈ {0,1}` (`start = 1` iff `isOdd`), Deinterlace copies every other
scanline beginning at row `start` into an intermediate image with exactly
`floor((H − start + 1)/2)` rows — not `ceil` as the claim states, refuted
at `H = 4, start = 0` by `C9_deinterlace_counterexample` — before
rescaling back to height `H`. -/
theorem C9_deinterlace_rows :
    ∀ (α : Type) (img : Deinterlace.Image α) (isOdd : Bool),
      ((Deinterlace.deinterlacedImage img isOdd).height : Int) =
        Deinterlace.specRowsFloor img.height (if isOdd then 1 else 0) ∧
      (∀ i, (Deinterlace.deinterlacedImage img isOdd).row i =
        img.row ((if isOdd then 1 else 0) + 2 * i)) ∧
      (Deinterlace.GetFrame img isOdd).height = img.height := by
  intro α img isOdd
  refine ⟨?_, fun i => rfl, rfl⟩
  obtain ⟨H, rowf⟩ := img
  cases isOdd
  · show ((Deinterlace.rows_to_copy H 0 : ℕ) : ℤ) = Deinterlace.specRowsFloor H 0
    unfold Deinterlace.rows_to_copy Deinterlace.specRowsFloor
    rw [show ((H : ℚ) - ((0 : ℕ) : ℚ) + 1) = (((H + 1 : ℕ) : ℚ)) from by push_cast; ring]
    rw [show ((2 : ℚ)) = (((2 : ℕ)) : ℚ) from by norm_num]
    rw [Rat.floor_natCast_div_natCast (H + 1) 2]
    norm_num
  · show ((Deinterlace.rows_to_copy H 1 : ℕ) : ℤ) = Deinterlace.specRowsFloor H 1
    unfold Deinterlace.rows_to_copy Deinterlace.specRowsFloor
    cases H with
    | zero => norm_num
    | succ m =>
      rw [show (((m + 1 : ℕ) : ℚ) - ((1 : ℕ) : ℚ) + 1) = (((m + 1 : ℕ) : ℚ)) from by
        push_cast; ring]
      rw [show ((2 : ℚ)) = (((2 : ℕ)) : ℚ) from by norm_num]
      rw [Rat.floor_natCast_div_natCast (m + 1) 2]
      norm_num

/-- Counterexample for C9 as stated: at `H = 4`, `start = 0`
(`isOdd = false`) the intermediate image has `(4 - 0 + 1) / 2 = 2` rows,
while the claim's `ceil((4 − 0 + 1)/2)` is 3. -/
theorem C9_deinterlace_counterexample :
    (Deinterlace.deinterlacedImage
        ({ height := 4, row := fun _ => (0 : Nat) } : Deinterlace.Image Nat)
        false).height = 2 ∧
    Deinterlace.specRowsCeil 4 0 = 3 ∧ ((2 : Int) ≠ 3) := by
  refine ⟨rfl, ?_, by decide⟩
  unfold Deinterlace.specRowsCeil
  rw [Int.ceil_eq_iff]
  norm_num

/-- C4. During a `prefetchWindow` batch, no frame is fetched or touched
after the `user_seeked` flag becomes true: the loop body is never entered
once the flag is set (first conjunct, for every loop configuration), and
in the concrete interrupt scenario — `last_cached_index = 19`, window
`[20,30]`, `dir = +1`, a cache whose `Add(23)` sets the flag — the batch
stops immediately with `last_cached_index = 23` and `full = false`, having
visited exactly frames 20..23. -/
theorem C4_user_seek_interrupt :
    (∀ (reader trigger : Int → Bool) (wb we dir : Int) (fuel : Nat) (next : Int)
       (s : VideoCacheThread.PFState), s.userSeeked = true →
       VideoCacheThread.pfLoop reader trigger wb we dir fuel next s = s) ∧
    ((VideoCacheThread.prefetchWindow (fun _ => true) (fun n => n == 23) 20 30 1
        ⟨[], 19, 0, false, true, [], [], []⟩).last_cached_index = 23 ∧
     (VideoCacheThread.prefetchWindow (fun _ => true) (fun n => n == 23) 20 30 1
        ⟨[], 19, 0, false, true, [], [], []⟩).window_full = false ∧
     (VideoCacheThread.prefetchWindow (fun _ => true) (fun n => n == 23) 20 30 1
        ⟨[], 19, 0, false, true, [], [], []⟩).userSeeked = true ∧
     (VideoCacheThread.prefetchWindow (fun _ => true) (fun n => n == 23) 20 30 1
        ⟨[], 19, 0, false, true, [], [], []⟩).visited = [23, 22, 21, 20]) := by
  constructor
  · intro reader trigger wb we dir fuel next s hu
    cases fuel with
    | zero => rfl
    | succ f =>
      unfold VideoCacheThread.pfLoop
      rw [hu]
      by_cases hc : (dir > 0 ∧ next ≤ we) ∨ (dir < 0 ∧ next ≥ wb)
      · rw [if_pos hc]; rw [if_pos rfl]
      · rw [if_neg hc]
  · decide

/-- Witness for C4: once `userSeeked` is set, the loop returns its state
unchanged (applied at a concrete interrupted configuration). -/
theorem C4_user_seek_interrupt_witness :
    VideoCacheThread.pfLoop (fun _ => true) (fun n => n == 23) 20 30 1 7 24
      ⟨[23, 22, 21, 20], 23, 4, true, false, [23, 22, 21, 20], [], [23, 22, 21, 20]⟩ =
      ⟨[23, 22, 21, 20], 23, 4, true, false, [23, 22, 21, 20], [], [23, 22, 21, 20]⟩ :=
  C4_user_seek_interrupt.1 (fun _ => true) (fun n => n == 23) 20 30 1 7 24
    ⟨[23, 22, 21, 20], 23, 4, true, false, [23, 22, 21, 20], [], [23, 22, 21, 20]⟩ rfl

/-- Helper for C10: with `dir = +1` the loop never consults
`window_begin`. -/
theorem pfLoop_forward_ignores_begin (reader trigger : Int → Bool) (we : Int) :
    ∀ (fuel : Nat) (next : Int) (s : VideoCacheThread.PFState) (wb wb' : Int),
      VideoCacheThread.pfLoop reader trigger wb we 1 fuel next s =
      VideoCacheThread.pfLoop reader trigger wb' we 1 fuel next s := by
  intro fuel
  induction fuel with
  | zero => intro next s wb wb'; rfl
  | succ f ih =>
    intro next s wb wb'
    unfold VideoCacheThread.pfLoop
    by_cases h : (1 : Int) > 0 ∧ next ≤ we
    · rw [if_pos (Or.inl h), if_pos (Or.inl h)]
      by_cases hu : s.userSeeked = true
      · rw [if_pos hu, if_pos hu]
      · rw [if_neg hu, if_neg hu]
        by_cases hm : next ∈ s.cache
        · rw [if_pos hm, if_pos hm]; exact ih _ _ wb wb'
        · rw [if_neg hm, if_neg hm]
          by_cases hr : reader next = true
          · rw [if_pos hr, if_pos hr]; exact ih _ _ wb wb'
          · rw [if_neg hr, if_neg hr]
    · have hc : ∀ b : Int, ¬ (((1 : Int) > 0 ∧ next ≤ we) ∨ ((1 : Int) < 0 ∧ next ≥ b)) := by
        intro b
        rintro (h1 | ⟨h2, _⟩)
        · exact h h1
        · omega
      rw [if_neg (hc wb), if_neg (hc wb')]

/-- Helper for C10: with `dir = -1` the loop never consults
`window_end`. -/
theorem pfLoop_backward_ignores_end (reader trigger : Int → Bool) (wb : Int) :
    ∀ (fuel : Nat) (next : Int) (s : VideoCacheThread.PFState) (we we' : Int),
      VideoCacheThread.pfLoop reader trigger wb we (-1) fuel next s =
      VideoCacheThread.pfLoop reader trigger wb we' (-1) fuel next s := by
  intro fuel
  induction fuel with
  | zero => intro next s we we'; rfl
  | succ f ih =>
    intro next s we we'
    unfold VideoCacheThread.pfLoop
    by_cases h : (-1 : Int) < 0 ∧ next ≥ wb
    · rw [if_pos (Or.inr h), if_pos (Or.inr h)]
      by_cases hu : s.userSeeked = true
      · rw [if_pos hu, if_pos hu]
      · rw [if_neg hu, if_neg hu]
        by_cases hm : next ∈ s.cache
        · rw [if_pos hm, if_pos hm]; exact ih _ _ we we'
        · rw [if_neg hm, if_neg hm]
          by_cases hr : reader next = true
          · rw [if_pos hr, if_pos hr]; exact ih _ _ we we'
          · rw [if_neg hr, if_neg hr]
    · have hc : ∀ e : Int, ¬ (((-1 : Int) > 0 ∧ next ≤ e) ∨ ((-1 : Int) < 0 ∧ next ≥ wb)) := by
        intro e
        rintro (⟨h1, _⟩ | h2)
        · omega
        · exact h h2
      rw [if_neg (hc we), if_neg (hc we')]

/-- C10. `prefetchWindow` bounds its walk only by the far edge of the
window: for `dir = +1` the result is independent of `window_begin` (and
for `dir = -1` independent of `window_end`) — there is no near-side bound
check — so when `last_cached_index + dir` lies on the near side outside
the window, frames outside `[window_begin, window_end]` are fetched and
added to the cache.  Concretely, with an empty cache,
`last_cached_index = 0` and window `[10, 12]`, the forward batch fetches
and caches frames 1..9, all below `window_begin = 10`. -/
theorem C10_no_near_side_bound :
    (∀ (reader trigger : Int → Bool) (wb wb' we : Int) (s : VideoCacheThread.PFState),
      VideoCacheThread.prefetchWindow reader trigger wb we 1 s =
      VideoCacheThread.prefetchWindow reader trigger wb' we 1 s) ∧
    (∀ (reader trigger : Int → Bool) (wb we we' : Int) (s : VideoCacheThread.PFState),
      VideoCacheThread.prefetchWindow reader trigger wb we (-1) s =
      VideoCacheThread.prefetchWindow reader trigger wb we' (-1) s) ∧
    ((VideoCacheThread.prefetchWindow (fun _ => true) (fun _ => false) 10 12 1
        ⟨[], 0, 0, false, true, [], [], []⟩).fetched =
          [12, 11, 10, 9, 8, 7, 6, 5, 4, 3, 2, 1] ∧
     (1 : Int) ∈ (VideoCacheThread.prefetchWindow (fun _ => true) (fun _ => false) 10 12 1
        ⟨[], 0, 0, false, true, [], [], []⟩).cache ∧
     ¬ ((10 : Int) ≤ 1)) := by
  refine ⟨?_, ?_, by decide⟩
  · intro reader trigger wb wb' we s
    unfold VideoCacheThread.prefetchWindow VideoCacheThread.pfFuel
    exact pfLoop_forward_ignores_begin reader trigger we _ _ _ wb wb'
  · intro reader trigger wb we we' s
    unfold VideoCacheThread.prefetchWindow VideoCacheThread.pfFuel
    exact pfLoop_backward_ignores_end reader trigger wb _ _ _ we we'

/-- C2. For every sequence of `setSpeed` calls, `last_dir` stays in {-1,+1}
(initially +1), `last_speed` and `last_dir` are updated only by calls with a
non-zero argument, and after `setSpeed(0)` following any non-zero speed `s`,
`computeDirection()` returns `sign(s)` — pausing never flips the
direction. -/
theorem C2_speed_direction_invariants :
    (∀ l : List Int,
      (l.foldl VideoCacheThread.setSpeed VideoCacheThread.initSpeedState).last_dir = 1 ∨
      (l.foldl VideoCacheThread.setSpeed VideoCacheThread.initSpeedState).last_dir = -1) ∧
    (∀ st : VideoCacheThread.SpeedState,
      (VideoCacheThread.setSpeed st 0).last_speed = st.last_speed ∧
      (VideoCacheThread.setSpeed st 0).last_dir = st.last_dir) ∧
    (∀ (st : VideoCacheThread.SpeedState) (s : Int), s ≠ 0 →
      VideoCacheThread.computeDirection
        (VideoCacheThread.setSpeed (VideoCacheThread.setSpeed st s) 0) = Int.sign s) := by
  refine ⟨?_, ?_, ?_⟩
  · intro l
    have key : ∀ (l : List Int) (st : VideoCacheThread.SpeedState),
        st.last_dir = 1 ∨ st.last_dir = -1 →
        (l.foldl VideoCacheThread.setSpeed st).last_dir = 1 ∨
        (l.foldl VideoCacheThread.setSpeed st).last_dir = -1 := by
      intro l
      induction l with
      | nil => intro st h; exact h
      | cons x xs ih =>
        intro st h
        refine ih _ ?_
        unfold VideoCacheThread.setSpeed
        by_cases hx : x ≠ 0
        · rw [if_pos hx]
          by_cases hpos : x > 0
          · left; simp [hpos]
          · right; simp [hpos]
        · rw [if_neg hx]
          exact h
    exact key l _ (Or.inl rfl)
  · intro st
    simp [VideoCacheThread.setSpeed]
  · intro st s hs
    unfold VideoCacheThread.setSpeed VideoCacheThread.computeDirection
    simp only [hs, if_true, ne_eq, not_true_eq_false, if_false, ite_not]
    by_cases hpos : s > 0
    · simp [hpos, Int.sign_eq_one_iff_pos.mpr hpos]
    · have hneg : s < 0 := by omega
      simp [hpos, Int.sign_eq_neg_one_iff_neg.mpr hneg]

/-- Witness for C2 at a concrete input: the hypothesis-bearing conjunct
applied to the pause-after-reverse scenario `setSpeed(-2); setSpeed(0)`,
where the computed direction is `sign(-2) = -1`. -/
theorem C2_speed_direction_invariants_witness :
    VideoCacheThread.computeDirection
      (VideoCacheThread.setSpeed
        (VideoCacheThread.setSpeed VideoCacheThread.initSpeedState (-2)) 0) = Int.sign (-2) :=
  C2_speed_direction_invariants.2.2 VideoCacheThread.initSpeedState (-2) (by decide)

/-- C3 (corrected). The clamped bounds always satisfy `wb ≥ 1` and
`we ≤ timeline_end`; the claim's `wb ≤ we` additionally requires the
playhead itself to lie in `[1, timeline_end]` (the original universally
quantified claim is refuted by `C3_window_clamping_counterexample`). -/
theorem C3_window_clamping :
    ∀ (playhead dir ahead_count timeline_end : Int),
      (1 ≤ (VideoCacheThread.computeWindowBounds playhead dir ahead_count timeline_end).1 ∧
       (VideoCacheThread.computeWindowBounds playhead dir ahead_count timeline_end).2 ≤
         timeline_end) ∧
      ((dir = 1 ∨ dir = -1) → 0 ≤ ahead_count → 1 ≤ playhead → playhead ≤ timeline_end →
        (VideoCacheThread.computeWindowBounds playhead dir ahead_count timeline_end).1 ≤
        (VideoCacheThread.computeWindowBounds playhead dir ahead_count timeline_end).2) := by
  intro playhead dir ahead_count timeline_end
  unfold VideoCacheThread.computeWindowBounds
  constructor
  · constructor
    · simp only []
      exact le_max_right _ 1
    · simp only []
      exact min_le_right _ _
  · rintro (hdir | hdir) hahead hp1 hpe <;> subst hdir <;> simp only [] <;> omega

/-- Counterexample for C3 as stated: with `playhead = 10`, `dir = +1`,
`ahead = 0`, `timeline_end = 5` (a playhead beyond the end of the
timeline), clamping produces `wb = 10 > we = 5`. -/
theorem C3_window_clamping_counterexample :
    ¬ ((VideoCacheThread.computeWindowBounds 10 1 0 5).1 ≤
       (VideoCacheThread.computeWindowBounds 10 1 0 5).2) := by
  decide

/-- Witness for C3 at a concrete input (`playhead = 10`, `dir = +1`,
`ahead = 5`, `timeline_end = 50`, as in the repository's unit test). -/
theorem C3_window_clamping_witness :
    (VideoCacheThread.computeWindowBounds 10 1 5 50).1 ≤
    (VideoCacheThread.computeWindowBounds 10 1 5 50).2 :=
  (C3_window_clamping 10 1 5 50).2 (Or.inl rfl) (by decide) (by decide) (by decide)

/-- C5. `clearCacheIfPaused(playhead, paused, cache)` returns `true` and
empties the whole cache iff `paused` holds and the cache does not contain
the playhead; in every other case it returns `false` and leaves the cache
unchanged. -/
theorem C5_clear_cache_if_paused :
    ∀ (playhead : Int) (paused : Bool) (cache : List Int),
      ((VideoCacheThread.clearCacheIfPaused playhead paused cache).1 = true ↔
        (paused = true ∧ playhead ∉ cache)) ∧
      ((paused = true ∧ playhead ∉ cache) →
        (VideoCacheThread.clearCacheIfPaused playhead paused cache).2 = []) ∧
      (¬ (paused = true ∧ playhead ∉ cache) →
        (VideoCacheThread.clearCacheIfPaused playhead paused cache).1 = false ∧
        (VideoCacheThread.clearCacheIfPaused playhead paused cache).2 = cache) := by
  intro playhead paused cache
  unfold VideoCacheThread.clearCacheIfPaused
  by_cases h : paused = true ∧ playhead ∉ cache
  · simp [h]
  · simp [h]

/-- Witness for C5 at the spec's concrete scenario: paused, playhead 42,
cache {5, 10} → clears; playhead 5 → unchanged. -/
theorem C5_clear_cache_if_paused_witness :
    (VideoCacheThread.clearCacheIfPaused 42 true [5, 10]).2 = [] ∧
    (VideoCacheThread.clearCacheIfPaused 5 true [5, 10]).2 = [5, 10] :=
  ⟨(C5_clear_cache_if_paused 42 true [5, 10]).2.1 (by decide),
   ((C5_clear_cache_if_paused 5 true [5, 10]).2.2 (by decide)).2⟩
